import Mathlib

/-!
Verification development for the resource-economy simulation
(`system.c`, `manager.c`, `resource.c`, `event.c`, `main.c`).

The C code is shallowly embedded: pointers to `Resource` objects are
modelled as indices (`Nat`) into a resource store `Nat → Resource`;
`NULL` pointers become `none : Option Nat`; the C `int` fields become
`Int`.  Sleeping (`usleep`) has no effect on the simulation state and is
modelled only through the duration computation
`system_simulate_process_time`.
-/

/--
The enumerated status / run-mode codes of the program.  `defs.h` is not
part of the sources, so the codes are modelled from the spec: the event
statuses `STATUS_OK, STATUS_EMPTY, STATUS_LOW, STATUS_INSUFFICIENT,
STATUS_CAPACITY` and the run modes `STANDARD, SLOW, FAST, DISABLED,
TERMINATE` are distinct enumerated values (the run modes are pairwise
distinct by the `switch` in `display_simulation_state`; the statuses by
the flag logic of `manager_run`).  The C code stores both kinds of code
in plain `int` fields, so we use a single type for both.
-/
inductive CStat where
  | ok
  | empty
  | low
  | insufficient
  | capacity
  | standard
  | slow
  | fast
  | disabled
  | terminate
  deriving DecidableEq, Repr

/-- Modelled from the spec: `defs.h` is absent; the only relevant fact
about the priority codes is that a higher value means higher priority,
with `PRIORITY_HIGH > PRIORITY_LOW`. -/
def PRIORITY_HIGH : Int := 2

/-- Modelled from the spec: see `PRIORITY_HIGH`. -/
def PRIORITY_LOW : Int := 0

/-- `Resource` from `defs.h`/`resource.c`: a named bounded counter. -/
structure Resource where
  name : String
  amount : Int
  max_capacity : Int
  deriving DecidableEq, Repr

/-- `ResourceAmount`: a (possibly `NULL`) resource pointer together with
a rule amount.  The pointer is modelled as an index into the resource
store. -/
structure ResourceAmount where
  resource : Option Nat
  amount : Int
  deriving DecidableEq, Repr

/-- `Event` from `defs.h`: the originating system is only ever used for
printing its name, so the `system` field stores the name. -/
structure Event where
  system : String
  resource : Option Nat
  status : CStat
  priority : Int
  amount : Int
  deriving DecidableEq, Repr

/-- `event_init` (`event.c`): sets all fields of an `Event`. -/
def event_init (system : String) (resource : Option Nat) (status : CStat)
    (priority : Int) (amount : Int) : Event :=
  { system := system, resource := resource, status := status,
    priority := priority, amount := amount }

/-- `System` from `defs.h`: name, consumption and production rules, the
held buffer `amount_stored`, the status/run-mode field and the base
processing time.  The `event_queue` pointer is modelled by keeping the
queue next to the system in `SimState`. -/
structure System where
  name : String
  consumed : ResourceAmount
  produced : ResourceAmount
  amount_stored : Int
  status : CStat
  processing_time : Int
  deriving DecidableEq, Repr

/-- Pointwise update of the resource store: the effect of a C write
through a `Resource*`. -/
def updateRes (res : Nat → Resource) (i : Nat) (r : Resource) : Nat → Resource :=
  fun j => if j = i then r else res j

@[simp] theorem updateRes_same (res : Nat → Resource) (i : Nat) (r : Resource) :
    updateRes res i r i = r := by
  simp [updateRes]

theorem updateRes_other (res : Nat → Resource) (i j : Nat) (r : Resource)
    (h : j ≠ i) : updateRes res i r j = res j := by
  simp [updateRes, h]

/-! ## The event queue (`event.c`)

The queue is a singly linked list ordered by descending priority; we
model it as a `List Event` whose head is the front node. -/

/-- The traversal loop of `event_queue_push` (`event.c` lines 83-92):
walk past every node whose priority is `≥` the new event's priority and
insert in front of the first strictly smaller one. -/
def event_queue_insert (e : Event) : List Event → List Event
  | [] => [e]
  | h :: t =>
    if h.priority ≥ e.priority then h :: event_queue_insert e t
    else e :: h :: t

/-- `event_queue_push` (`event.c`): prepend when the queue is empty or
the new event has strictly higher priority than the head; otherwise keep
the head and run the traversal loop on the tail (the loop always passes
the head, whose priority is `≥` the new event's). -/
def event_queue_push (q : List Event) (e : Event) : List Event :=
  match q with
  | [] => [e]
  | h :: t =>
    if e.priority > h.priority then e :: h :: t
    else h :: event_queue_insert e t

/-- `event_queue_pop` (`event.c`): remove and return the front node. -/
def event_queue_pop (q : List Event) : Option (Event × List Event) :=
  match q with
  | [] => none
  | h :: t => some (h, t)

/-- Repeatedly `event_queue_pop` until the queue reports empty,
collecting the popped events in order. -/
def event_queue_drain : List Event → List Event
  | [] => []
  | h :: t => h :: event_queue_drain t

theorem event_queue_drain_eq (q : List Event) : event_queue_drain q = q := by
  induction q with
  | nil => rfl
  | cons h t ih => simp [event_queue_drain, ih]

theorem event_queue_push_eq_insert (q : List Event) (e : Event) :
    event_queue_push q e = event_queue_insert e q := by
  cases q with
  | nil => rfl
  | cons h t =>
    by_cases hp : e.priority > h.priority
    · have : ¬ h.priority ≥ e.priority := by omega
      simp [event_queue_push, event_queue_insert, hp, this]
    · have : h.priority ≥ e.priority := by omega
      simp [event_queue_push, event_queue_insert, hp, this]

theorem event_queue_insert_mem {x e : Event} {q : List Event}
    (h : x ∈ event_queue_insert e q) : x = e ∨ x ∈ q := by
  induction q with
  | nil => simpa [event_queue_insert] using h
  | cons a t ih =>
    by_cases hp : a.priority ≥ e.priority
    · simp only [event_queue_insert, if_pos hp, List.mem_cons] at h
      rcases h with h | h
      · exact Or.inr (by simp [h])
      · rcases ih h with h | h
        · exact Or.inl h
        · exact Or.inr (List.mem_cons_of_mem _ h)
    · simp only [event_queue_insert, if_neg hp, List.mem_cons] at h
      rcases h with h | h
      · exact Or.inl h
      · exact Or.inr (by simpa using h)

/-- Inserting preserves the descending-priority ordering. -/
theorem event_queue_insert_pairwise (e : Event) (q : List Event)
    (h : q.Pairwise (fun a b => b.priority ≤ a.priority)) :
    (event_queue_insert e q).Pairwise (fun a b => b.priority ≤ a.priority) := by
  induction q with
  | nil => simp [event_queue_insert]
  | cons a t ih =>
    rcases List.pairwise_cons.mp h with ⟨ha, ht⟩
    by_cases hp : a.priority ≥ e.priority
    · simp only [event_queue_insert, if_pos hp]
      refine List.pairwise_cons.mpr ⟨?_, ih ht⟩
      intro x hx
      rcases event_queue_insert_mem hx with rfl | hx
      · exact hp
      · exact ha x hx
    · simp only [event_queue_insert, if_neg hp]
      refine List.pairwise_cons.mpr ⟨?_, h⟩
      intro x hx
      rcases List.mem_cons.mp hx with rfl | hx
      · omega
      · have := ha x hx
        omega

/-- For events of the inserted priority, insertion appends at the back:
the new event goes behind every already-present event of equal
priority. -/
theorem event_queue_insert_filter_self (e : Event) (q : List Event)
    (h : q.Pairwise (fun a b => b.priority ≤ a.priority)) :
    (event_queue_insert e q).filter (fun x => x.priority == e.priority) =
      q.filter (fun x => x.priority == e.priority) ++ [e] := by
  induction q with
  | nil => simp [event_queue_insert]
  | cons a t ih =>
    rcases List.pairwise_cons.mp h with ⟨ha, ht⟩
    by_cases hp : a.priority ≥ e.priority
    · simp only [event_queue_insert, if_pos hp, List.filter_cons]
      by_cases hae : a.priority == e.priority
      · simp [hae, ih ht]
      · simp [hae, ih ht]
    · simp only [event_queue_insert, if_neg hp]
      have hne : ∀ x ∈ a :: t, ¬ (x.priority == e.priority) = true := by
        intro x hx
        rcases List.mem_cons.mp hx with rfl | hx
        · simp only [beq_iff_eq]; omega
        · have := ha x hx
          simp only [beq_iff_eq]; omega
      have : (a :: t).filter (fun x => x.priority == e.priority) = [] :=
        List.filter_eq_nil_iff.mpr hne
      simp [List.filter_cons, this]

/-- For events of any other priority, insertion changes nothing. -/
theorem event_queue_insert_filter_other (e : Event) (q : List Event) (p : Int)
    (hne : e.priority ≠ p) :
    (event_queue_insert e q).filter (fun x => x.priority == p) =
      q.filter (fun x => x.priority == p) := by
  induction q with
  | nil => simp [event_queue_insert, List.filter_cons, hne]
  | cons a t ih =>
    by_cases hp : a.priority ≥ e.priority
    · simp only [event_queue_insert, if_pos hp, List.filter_cons]
      by_cases hap : a.priority == p
      · simp [hap, ih]
      · simp [hap, ih]
    · simp only [event_queue_insert, if_neg hp, List.filter_cons, hne]
      simp [hne]

theorem event_queue_foldl_pairwise (l : List Event) (q : List Event)
    (h : q.Pairwise (fun a b => b.priority ≤ a.priority)) :
    (l.foldl event_queue_push q).Pairwise (fun a b => b.priority ≤ a.priority) := by
  induction l generalizing q with
  | nil => simpa using h
  | cons e l ih =>
    simp only [List.foldl_cons]
    exact ih _ (by
      rw [event_queue_push_eq_insert]
      exact event_queue_insert_pairwise e q h)

theorem event_queue_foldl_filter (l : List Event) (q : List Event) (p : Int)
    (h : q.Pairwise (fun a b => b.priority ≤ a.priority)) :
    (l.foldl event_queue_push q).filter (fun x => x.priority == p) =
      q.filter (fun x => x.priority == p) ++ l.filter (fun x => x.priority == p) := by
  induction l generalizing q with
  | nil => simp
  | cons e l ih =>
    simp only [List.foldl_cons]
    rw [ih _ (by
      rw [event_queue_push_eq_insert]
      exact event_queue_insert_pairwise e q h)]
    rw [event_queue_push_eq_insert]
    by_cases hep : e.priority = p
    · subst hep
      rw [event_queue_insert_filter_self e q h]
      simp [List.filter_cons]
    · rw [event_queue_insert_filter_other e q p hep]
      simp [List.filter_cons, hep]

/-- C2: pushing any sequence of events onto an initially empty queue and
then draining it with `event_queue_pop` yields the events in
non-increasing priority order, and among events of equal priority in
their push order (oldest first). -/
theorem event_queue_priority_fifo (events : List Event) :
    (event_queue_drain (events.foldl event_queue_push [])).Pairwise
        (fun a b => b.priority ≤ a.priority) ∧
    ∀ p : Int,
      (event_queue_drain (events.foldl event_queue_push [])).filter
          (fun x => x.priority == p) =
        events.filter (fun x => x.priority == p) := by
  rw [event_queue_drain_eq]
  constructor
  · exact event_queue_foldl_pairwise events [] (by simp)
  · intro p
    rw [event_queue_foldl_filter events [] p (by simp)]
    simp

/-! ## Conversion and storage (`system.c`) -/

/-- `system_convert` (`system.c` lines 125-154): consume the required
amount of the consumed resource if possible, otherwise report `EMPTY`
(held exactly 0) or `INSUFFICIENT`; on success add the produced rule
amount to `amount_stored` (or zero it when nothing is produced).
Returns `(status, resource store, system)`. -/
def system_convert (res : Nat → Resource) (s : System) :
    CStat × (Nat → Resource) × System :=
  let statusRes : CStat × (Nat → Resource) :=
    match s.consumed.resource with
    | none => (CStat.ok, res)
    | some r =>
      if (res r).amount ≥ s.consumed.amount then
        (CStat.ok,
         updateRes res r { res r with amount := (res r).amount - s.consumed.amount })
      else if (res r).amount = 0 then (CStat.empty, res)
      else (CStat.insufficient, res)
  if statusRes.1 = CStat.ok then
    match s.produced.resource with
    | some _ =>
      (statusRes.1, statusRes.2,
       { s with amount_stored := s.amount_stored + s.produced.amount })
    | none => (statusRes.1, statusRes.2, { s with amount_stored := 0 })
  else (statusRes.1, statusRes.2, s)

/-- `system_store_resources` (`system.c` lines 193-223): flush the
buffer into the produced resource up to its available space; return
`STATUS_CAPACITY` when a remainder stays buffered, `STATUS_OK`
otherwise. -/
def system_store_resources (res : Nat → Resource) (s : System) :
    CStat × (Nat → Resource) × System :=
  match s.produced.resource with
  | none => (CStat.ok, res, { s with amount_stored := 0 })
  | some r =>
    if s.amount_stored = 0 then (CStat.ok, res, { s with amount_stored := 0 })
    else
      let amount_to_store := s.amount_stored
      let available_space := (res r).max_capacity - (res r).amount
      let resStored : (Nat → Resource) × Int :=
        if available_space ≥ amount_to_store then
          (updateRes res r { res r with amount := (res r).amount + amount_to_store }, 0)
        else if available_space > 0 then
          (updateRes res r { res r with amount := (res r).amount + available_space },
           amount_to_store - available_space)
        else (res, amount_to_store)
      (if resStored.2 ≠ 0 then CStat.capacity else CStat.ok,
       resStored.1, { s with amount_stored := resStored.2 })

/-- C3: a convert attempt with a non-null consumed resource and a
positive required amount yields `EMPTY` when the resource holds 0,
`INSUFFICIENT` when it holds between 1 and `required - 1`, and succeeds
(consuming exactly the required amount) when it holds at least
`required`. -/
theorem system_convert_status_cases (res : Nat → Resource) (s : System) (r : Nat)
    (hr : s.consumed.resource = some r) (hpos : 0 < s.consumed.amount) :
    ((res r).amount = 0 → (system_convert res s).1 = CStat.empty) ∧
    (1 ≤ (res r).amount → (res r).amount ≤ s.consumed.amount - 1 →
      (system_convert res s).1 = CStat.insufficient) ∧
    (s.consumed.amount ≤ (res r).amount →
      (system_convert res s).1 = CStat.ok ∧
      ((system_convert res s).2.1 r).amount = (res r).amount - s.consumed.amount) := by
  refine ⟨?_, ?_, ?_⟩
  · intro h0
    have hlt : ¬ (res r).amount ≥ s.consumed.amount := by omega
    have hc : ¬ s.consumed.amount ≤ 0 := by omega
    simp [system_convert, hr, hlt, h0, hc]
  · intro h1 h2
    have hlt : ¬ (res r).amount ≥ s.consumed.amount := by omega
    have hne : ¬ (res r).amount = 0 := by omega
    simp [system_convert, hr, hlt, hne]
  · intro hge
    have hge' : (res r).amount ≥ s.consumed.amount := hge
    cases hp : s.produced.resource <;>
      simp [system_convert, hr, hge', hp, updateRes]

/-- Witness for `system_convert_status_cases`: the `Generator` rule
(consume 5 Fuel) against a store holding 3 Fuel. -/
theorem system_convert_status_cases_witness :
    (((fun _ => ({ name := "Fuel", amount := 3, max_capacity := 1000 } : Resource)) 0).amount = 0 →
      (system_convert (fun _ => { name := "Fuel", amount := 3, max_capacity := 1000 })
        { name := "Generator", consumed := ⟨some 0, 5⟩, produced := ⟨some 1, 10⟩,
          amount_stored := 0, status := CStat.standard, processing_time := 20 }).1 =
        CStat.empty) ∧
    (1 ≤ ((fun _ => ({ name := "Fuel", amount := 3, max_capacity := 1000 } : Resource)) 0).amount →
      ((fun _ => ({ name := "Fuel", amount := 3, max_capacity := 1000 } : Resource)) 0).amount ≤
        ({ name := "Generator", consumed := ⟨some 0, 5⟩, produced := ⟨some 1, 10⟩,
           amount_stored := 0, status := CStat.standard,
           processing_time := 20 } : System).consumed.amount - 1 →
      (system_convert (fun _ => { name := "Fuel", amount := 3, max_capacity := 1000 })
        { name := "Generator", consumed := ⟨some 0, 5⟩, produced := ⟨some 1, 10⟩,
          amount_stored := 0, status := CStat.standard, processing_time := 20 }).1 =
        CStat.insufficient) ∧
    (({ name := "Generator", consumed := ⟨some 0, 5⟩, produced := ⟨some 1, 10⟩,
        amount_stored := 0, status := CStat.standard,
        processing_time := 20 } : System).consumed.amount ≤
        ((fun _ => ({ name := "Fuel", amount := 3, max_capacity := 1000 } : Resource)) 0).amount →
      (system_convert (fun _ => { name := "Fuel", amount := 3, max_capacity := 1000 })
        { name := "Generator", consumed := ⟨some 0, 5⟩, produced := ⟨some 1, 10⟩,
          amount_stored := 0, status := CStat.standard, processing_time := 20 }).1 =
        CStat.ok ∧
      ((system_convert (fun _ => { name := "Fuel", amount := 3, max_capacity := 1000 })
        { name := "Generator", consumed := ⟨some 0, 5⟩, produced := ⟨some 1, 10⟩,
          amount_stored := 0, status := CStat.standard, processing_time := 20 }).2.1 0).amount =
        ((fun _ => ({ name := "Fuel", amount := 3, max_capacity := 1000 } : Resource)) 0).amount -
          ({ name := "Generator", consumed := ⟨some 0, 5⟩, produced := ⟨some 1, 10⟩,
             amount_stored := 0, status := CStat.standard,
             processing_time := 20 } : System).consumed.amount) :=
  system_convert_status_cases
    (fun _ => { name := "Fuel", amount := 3, max_capacity := 1000 })
    { name := "Generator", consumed := ⟨some 0, 5⟩, produced := ⟨some 1, 10⟩,
      amount_stored := 0, status := CStat.standard, processing_time := 20 }
    0 rfl (by decide)

/-- C4: a store attempt with a non-null produced resource and a positive
buffer, with `headroom = max_capacity - amount`: full store when
`headroom ≥ buffer`; partial store filling to capacity with remainder
and status `CAPACITY` when `0 < headroom < buffer`; unchanged state with
status `CAPACITY` when `headroom = 0`. -/
theorem system_store_resources_cases (res : Nat → Resource) (s : System) (r : Nat)
    (hr : s.produced.resource = some r) (hpos : 0 < s.amount_stored) :
    ((res r).max_capacity - (res r).amount ≥ s.amount_stored →
      (system_store_resources res s).2.2.amount_stored = 0 ∧
      ((system_store_resources res s).2.1 r).amount = (res r).amount + s.amount_stored) ∧
    (0 < (res r).max_capacity - (res r).amount →
      (res r).max_capacity - (res r).amount < s.amount_stored →
      ((system_store_resources res s).2.1 r).amount = (res r).max_capacity ∧
      (system_store_resources res s).2.2.amount_stored =
        s.amount_stored - ((res r).max_capacity - (res r).amount) ∧
      (system_store_resources res s).1 = CStat.capacity) ∧
    ((res r).max_capacity - (res r).amount = 0 →
      (system_store_resources res s).2.1 = res ∧
      (system_store_resources res s).2.2.amount_stored = s.amount_stored ∧
      (system_store_resources res s).1 = CStat.capacity) := by
  have hne : ¬ s.amount_stored = 0 := by omega
  refine ⟨?_, ?_, ?_⟩
  · intro hge
    simp [system_store_resources, hr, hne, hge, updateRes]
  · intro hpos' hlt
    have h1 : ¬ (res r).max_capacity - (res r).amount ≥ s.amount_stored := by omega
    have h2 : s.amount_stored - ((res r).max_capacity - (res r).amount) ≠ 0 := by omega
    refine ⟨?_, ?_, ?_⟩ <;>
      simp [system_store_resources, hr, hne, h1, hpos', h2, updateRes]
  · intro h0
    have h1 : ¬ (res r).max_capacity - (res r).amount ≥ s.amount_stored := by omega
    have h2 : ¬ (res r).max_capacity - (res r).amount > 0 := by omega
    simp [system_store_resources, hr, hne, h1, h2]

/-- Oxygen at 48 of 50: headroom 2. -/
def exResC4 : Nat → Resource := fun _ => { name := "Oxygen", amount := 48, max_capacity := 50 }

/-- The life-support rule (produce 4 Oxygen) holding a buffer of 4. -/
def exSysC4 : System :=
  { name := "Life Support", consumed := ⟨some 1, 7⟩, produced := ⟨some 0, 4⟩,
    amount_stored := 4, status := CStat.standard, processing_time := 10 }

/-- Witness for `system_store_resources_cases`: partial store of 4 units
of Oxygen into headroom 2 fills the resource to 50 and leaves 2
buffered with status `CAPACITY`. -/
theorem system_store_resources_cases_witness :
    ((exResC4 0).max_capacity - (exResC4 0).amount ≥ exSysC4.amount_stored →
      (system_store_resources exResC4 exSysC4).2.2.amount_stored = 0 ∧
      ((system_store_resources exResC4 exSysC4).2.1 0).amount =
        (exResC4 0).amount + exSysC4.amount_stored) ∧
    (0 < (exResC4 0).max_capacity - (exResC4 0).amount →
      (exResC4 0).max_capacity - (exResC4 0).amount < exSysC4.amount_stored →
      ((system_store_resources exResC4 exSysC4).2.1 0).amount = (exResC4 0).max_capacity ∧
      (system_store_resources exResC4 exSysC4).2.2.amount_stored =
        exSysC4.amount_stored - ((exResC4 0).max_capacity - (exResC4 0).amount) ∧
      (system_store_resources exResC4 exSysC4).1 = CStat.capacity) ∧
    ((exResC4 0).max_capacity - (exResC4 0).amount = 0 →
      (system_store_resources exResC4 exSysC4).2.1 = exResC4 ∧
      (system_store_resources exResC4 exSysC4).2.2.amount_stored = exSysC4.amount_stored ∧
      (system_store_resources exResC4 exSysC4).1 = CStat.capacity) :=
  system_store_resources_cases exResC4 exSysC4 0 rfl (by decide)

/-! ## The per-cycle loop body (`system_run`, `system.c` lines 86-114) -/

/-- The state a single running system sees: the shared resource store,
the system itself, and the shared event queue it pushes into. -/
structure SimState where
  resources : Nat → Resource
  system : System
  queue : List Event

/-- `system_simulate_process_time` (`system.c` lines 164-181): the
adjusted sleep duration — `×2` under `SLOW`, halved under `FAST`, the
base processing time otherwise.  The sleep itself does not touch the
simulation state. -/
def system_simulate_process_time (s : System) : Int :=
  match s.status with
  | CStat.slow => s.processing_time * 2
  | CStat.fast => s.processing_time / 2
  | _ => s.processing_time

/-- First half of `system_run`: when the buffer is empty, attempt
`system_convert`; on failure push an event on the consumed resource with
priority `PRIORITY_HIGH` and magnitude the consumed rule amount.  (The
consumed resource pointer is non-null whenever convert fails, so the
`none` branch below is unreachable; the C passes the pointer
unconditionally.) -/
def system_run_convert_phase (st : SimState) : SimState :=
  if st.system.amount_stored = 0 then
    let out := system_convert st.resources st.system
    if out.1 ≠ CStat.ok then
      { resources := out.2.1, system := out.2.2,
        queue := event_queue_push st.queue
          (event_init out.2.2.name out.2.2.consumed.resource out.1
            PRIORITY_HIGH out.2.2.consumed.amount) }
    else { resources := out.2.1, system := out.2.2, queue := st.queue }
  else st

/-- Second half of `system_run`: when the buffer is non-empty, attempt
`system_store_resources`; on failure push an event on the produced
resource with priority `PRIORITY_LOW` and magnitude the produced rule
amount. -/
def system_run_store_phase (st : SimState) : SimState :=
  if st.system.amount_stored > 0 then
    let out := system_store_resources st.resources st.system
    if out.1 ≠ CStat.ok then
      { resources := out.2.1, system := out.2.2,
        queue := event_queue_push st.queue
          (event_init out.2.2.name out.2.2.produced.resource out.1
            PRIORITY_LOW out.2.2.produced.amount) }
    else { resources := out.2.1, system := out.2.2, queue := st.queue }
  else st

/-- `system_run` (`system.c`): the convert phase followed by the store
phase. -/
def system_run (st : SimState) : SimState :=
  system_run_store_phase (system_run_convert_phase st)

theorem event_queue_insert_length (e : Event) (q : List Event) :
    (event_queue_insert e q).length = q.length + 1 := by
  induction q with
  | nil => rfl
  | cons a t ih =>
    by_cases hp : a.priority ≥ e.priority <;>
      simp [event_queue_insert, hp, ih]

theorem event_queue_push_length (q : List Event) (e : Event) :
    (event_queue_push q e).length = q.length + 1 := by
  rw [event_queue_push_eq_insert, event_queue_insert_length]

/-- A failed convert leaves both the resource store and the system
untouched. -/
theorem system_convert_not_ok (res : Nat → Resource) (s : System)
    (h : (system_convert res s).1 ≠ CStat.ok) :
    (system_convert res s).2.1 = res ∧ (system_convert res s).2.2 = s := by
  unfold system_convert at h ⊢
  cases hcr : s.consumed.resource with
  | none => cases hp : s.produced.resource <;> simp [hcr, hp] at h
  | some r =>
    by_cases hge : (res r).amount ≥ s.consumed.amount
    · cases hp : s.produced.resource <;> simp [hcr, hp, hge] at h
    · by_cases h0 : (res r).amount = 0
      · have hc : ¬ s.consumed.amount ≤ 0 := by rw [h0] at hge; omega
        simp [hcr, hge, h0, hc]
      · simp [hcr, hge, h0]

/-- Convert never changes a system's name or its fixed rules. -/
theorem system_convert_rules (res : Nat → Resource) (s : System) :
    (system_convert res s).2.2.name = s.name ∧
    (system_convert res s).2.2.consumed = s.consumed ∧
    (system_convert res s).2.2.produced = s.produced := by
  unfold system_convert
  cases hcr : s.consumed.resource <;> cases hp : s.produced.resource <;>
    simp [hcr, hp] <;> split_ifs <;> simp

/-- Store never changes a system's name or its fixed rules. -/
theorem system_store_rules (res : Nat → Resource) (s : System) :
    (system_store_resources res s).2.2.name = s.name ∧
    (system_store_resources res s).2.2.consumed = s.consumed ∧
    (system_store_resources res s).2.2.produced = s.produced := by
  unfold system_store_resources
  cases hp : s.produced.resource <;> simp [hp] <;> split_ifs <;> simp

/-- A cycle starting with a non-empty buffer skips the convert phase. -/
theorem convert_phase_of_nonzero (st : SimState)
    (h : st.system.amount_stored ≠ 0) : system_run_convert_phase st = st := by
  unfold system_run_convert_phase
  rw [if_neg h]

/-- A cycle starting with an empty buffer skips the store phase when the
buffer is still empty afterwards. -/
theorem store_phase_of_nonpos (st : SimState)
    (h : ¬ st.system.amount_stored > 0) : system_run_store_phase st = st := by
  unfold system_run_store_phase
  rw [if_neg h]

theorem store_phase_queue_le (st : SimState) :
    (system_run_store_phase st).queue.length ≤ st.queue.length + 1 := by
  unfold system_run_store_phase
  by_cases hg : st.system.amount_stored > 0
  · rw [if_pos hg]
    by_cases hok : (system_store_resources st.resources st.system).1 ≠ CStat.ok
    · rw [if_pos hok]
      simp [event_queue_push_length]
    · rw [if_neg hok]
      simp
  · rw [if_neg hg]
    simp

/-- In the convert phase, either exactly one event is pushed and the
buffer stays empty, or the queue is untouched. -/
theorem convert_phase_cases (st : SimState) (h0 : st.system.amount_stored = 0) :
    ((system_run_convert_phase st).queue.length = st.queue.length + 1 ∧
      (system_run_convert_phase st).system.amount_stored = 0) ∨
    (system_run_convert_phase st).queue = st.queue := by
  unfold system_run_convert_phase
  rw [if_pos h0]
  by_cases hok : (system_convert st.resources st.system).1 ≠ CStat.ok
  · left
    rw [if_pos hok]
    obtain ⟨-, hsys⟩ := system_convert_not_ok st.resources st.system hok
    exact ⟨by simp [event_queue_push_length], by simp [hsys, h0]⟩
  · right
    rw [if_neg hok]

/-- C8: a single call of `system_run` pushes at most one event onto the
queue, from every starting state. -/
theorem system_run_at_most_one_event (st : SimState) :
    (system_run st).queue.length ≤ st.queue.length + 1 := by
  unfold system_run
  by_cases h0 : st.system.amount_stored = 0
  · rcases convert_phase_cases st h0 with ⟨hq, hb⟩ | hq
    · have := store_phase_of_nonpos (system_run_convert_phase st) (by omega)
      rw [this, hq]
    · calc (system_run_store_phase (system_run_convert_phase st)).queue.length
          ≤ (system_run_convert_phase st).queue.length + 1 :=
            store_phase_queue_le _
        _ = st.queue.length + 1 := by rw [hq]
  · rw [convert_phase_of_nonzero st h0]
    exact store_phase_queue_le st

/-- C10: a cycle that starts with an empty buffer and whose convert
attempt fails with `EMPTY` or `INSUFFICIENT` leaves every resource (in
particular the consumed one) and the whole system (in particular its
buffer) exactly as they were: no partial consumption, and no store
attempt takes place. -/
theorem system_run_failed_convert_frame (st : SimState)
    (h0 : st.system.amount_stored = 0)
    (hf : (system_convert st.resources st.system).1 = CStat.empty ∨
          (system_convert st.resources st.system).1 = CStat.insufficient) :
    (system_run st).resources = st.resources ∧
    (system_run st).system = st.system := by
  have hne : (system_convert st.resources st.system).1 ≠ CStat.ok := by
    rcases hf with hf | hf <;> rw [hf] <;> simp
  obtain ⟨hres, hsys⟩ := system_convert_not_ok st.resources st.system hne
  have h1 : system_run_convert_phase st =
      { resources := st.resources, system := st.system,
        queue := event_queue_push st.queue
          (event_init st.system.name st.system.consumed.resource
            (system_convert st.resources st.system).1 PRIORITY_HIGH
            st.system.consumed.amount) } := by
    unfold system_run_convert_phase
    rw [if_pos h0, if_pos hne, hres, hsys]
  unfold system_run
  rw [h1, store_phase_of_nonpos _ (by simp [h0])]
  exact ⟨rfl, rfl⟩

/-- Energy at 5 of 50; the life-support rule needs 7 Energy, so the
convert attempt fails with `INSUFFICIENT`. -/
def exStC10 : SimState :=
  { resources := fun _ => { name := "Energy", amount := 5, max_capacity := 50 },
    system := { name := "Life Support", consumed := ⟨some 0, 7⟩, produced := ⟨some 1, 4⟩,
                amount_stored := 0, status := CStat.standard, processing_time := 10 },
    queue := [] }

/-- Witness for `system_run_failed_convert_frame`: an `INSUFFICIENT`
convert leaves the whole state (other than the event queue)
untouched. -/
theorem system_run_failed_convert_frame_witness :
    (system_run exStC10).resources = exStC10.resources ∧
    (system_run exStC10).system = exStC10.system :=
  system_run_failed_convert_frame exStC10 rfl (Or.inr (by decide))

/-- The convert phase never changes the produced rule. -/
theorem convert_phase_produced (st : SimState) :
    (system_run_convert_phase st).system.produced = st.system.produced := by
  unfold system_run_convert_phase
  by_cases h0 : st.system.amount_stored = 0
  · rw [if_pos h0]
    by_cases hok : (system_convert st.resources st.system).1 ≠ CStat.ok
    · rw [if_pos hok]
      exact (system_convert_rules st.resources st.system).2.2
    · rw [if_neg hok]
      exact (system_convert_rules st.resources st.system).2.2
  · rw [if_neg h0]

/-- Propulsion holding a leftover buffer of 10 (from an earlier partial
store of its 25-unit production) against a full Distance resource. -/
def exStC6 : SimState :=
  { resources := fun _ => { name := "Distance", amount := 5000, max_capacity := 5000 },
    system := { name := "Propulsion", consumed := ⟨some 1, 5⟩, produced := ⟨some 0, 25⟩,
                amount_stored := 10, status := CStat.standard, processing_time := 50 },
    queue := [] }

/-- C6 counterexample: in a cycle whose store attempt fails with
`CAPACITY`, the pushed event's magnitude is the produced rule amount
(25), not the buffered amount held before the store attempt (10). -/
theorem system_run_capacity_event_magnitude_cex :
    exStC6.system.amount_stored = 10 ∧
    (system_run exStC6).queue.map (fun e => e.status) = [CStat.capacity] ∧
    (system_run exStC6).queue.map (fun e => e.amount) = [25] ∧
    ¬ (system_run exStC6).queue.map (fun e => e.amount) =
        [exStC6.system.amount_stored] := by
  decide

/-- C6 amended: in every cycle whose store attempt fails with
`CAPACITY`, the pushed event has status `CAPACITY`, priority
`PRIORITY_LOW`, and magnitude equal to the system's produced rule
amount (`system->produced.amount`). -/
theorem system_run_capacity_event_fields (st : SimState)
    (h1 : (system_run_convert_phase st).system.amount_stored > 0)
    (h2 : (system_store_resources (system_run_convert_phase st).resources
            (system_run_convert_phase st).system).1 = CStat.capacity) :
    (system_run st).queue = event_queue_push (system_run_convert_phase st).queue
      (event_init (system_run_convert_phase st).system.name
        (system_run_convert_phase st).system.produced.resource
        CStat.capacity PRIORITY_LOW st.system.produced.amount) := by
  have hne : (system_store_resources (system_run_convert_phase st).resources
      (system_run_convert_phase st).system).1 ≠ CStat.ok := by
    rw [h2]; simp
  obtain ⟨hname, -, hprod⟩ := system_store_rules
    (system_run_convert_phase st).resources (system_run_convert_phase st).system
  unfold system_run system_run_store_phase
  rw [if_pos h1, if_pos hne]
  simp only [hname, hprod, h2, convert_phase_produced st]

/-- Witness for `system_run_capacity_event_fields` at `exStC6`. -/
theorem system_run_capacity_event_fields_witness :
    (system_run exStC6).queue = event_queue_push (system_run_convert_phase exStC6).queue
      (event_init (system_run_convert_phase exStC6).system.name
        (system_run_convert_phase exStC6).system.produced.resource
        CStat.capacity PRIORITY_LOW exStC6.system.produced.amount) :=
  system_run_capacity_event_fields exStC6 (by decide) (by decide)

/-- `system_convert` never reads the status/run-mode field: it only
carries it through. -/
theorem system_convert_status_irrel (res : Nat → Resource) (s : System) (x : CStat) :
    system_convert res { s with status := x } =
      ((system_convert res s).1, (system_convert res s).2.1,
       { (system_convert res s).2.2 with status := x }) := by
  rcases s with ⟨n, ⟨cr, ca⟩, ⟨pr, pa⟩, a, stat, t⟩
  cases cr <;> cases pr <;> simp [system_convert] <;> split_ifs <;> rfl

/-- `system_store_resources` never reads the status/run-mode field. -/
theorem system_store_status_irrel (res : Nat → Resource) (s : System) (x : CStat) :
    system_store_resources res { s with status := x } =
      ((system_store_resources res s).1, (system_store_resources res s).2.1,
       { (system_store_resources res s).2.2 with status := x }) := by
  rcases s with ⟨n, ⟨cr, ca⟩, ⟨pr, pa⟩, a, stat, t⟩
  cases pr <;> simp [system_store_resources] <;> split_ifs <;> rfl

theorem convert_phase_status_irrel (res : Nat → Resource) (s : System)
    (q : List Event) (x : CStat) :
    system_run_convert_phase ⟨res, { s with status := x }, q⟩ =
      { resources := (system_run_convert_phase ⟨res, s, q⟩).resources,
        system := { (system_run_convert_phase ⟨res, s, q⟩).system with status := x },
        queue := (system_run_convert_phase ⟨res, s, q⟩).queue } := by
  unfold system_run_convert_phase
  simp only [system_convert_status_irrel]
  by_cases h0 : s.amount_stored = 0
  · by_cases hok : (system_convert res s).1 ≠ CStat.ok
    · simp [h0, hok]
    · simp [h0, hok]
  · simp [h0]

theorem store_phase_status_irrel (res : Nat → Resource) (s : System)
    (q : List Event) (x : CStat) :
    system_run_store_phase ⟨res, { s with status := x }, q⟩ =
      { resources := (system_run_store_phase ⟨res, s, q⟩).resources,
        system := { (system_run_store_phase ⟨res, s, q⟩).system with status := x },
        queue := (system_run_store_phase ⟨res, s, q⟩).queue } := by
  unfold system_run_store_phase
  simp only [system_store_status_irrel]
  by_cases h0 : s.amount_stored > 0
  · by_cases hok : (system_store_resources res s).1 ≠ CStat.ok
    · simp [h0, hok]
    · simp [h0, hok]
  · simp [h0]

/-- `system_run` never reads the status/run-mode field: the cycle of a
system in any mode performs the same conversions, stores and event
pushes. -/
theorem system_run_status_irrel (res : Nat → Resource) (s : System)
    (q : List Event) (x : CStat) :
    system_run ⟨res, { s with status := x }, q⟩ =
      { resources := (system_run ⟨res, s, q⟩).resources,
        system := { (system_run ⟨res, s, q⟩).system with status := x },
        queue := (system_run ⟨res, s, q⟩).queue } := by
  unfold system_run
  rw [convert_phase_status_irrel,
    store_phase_status_irrel (system_run_convert_phase ⟨res, s, q⟩).resources
      (system_run_convert_phase ⟨res, s, q⟩).system
      (system_run_convert_phase ⟨res, s, q⟩).queue x]

/-- A `DISABLED` crew-style unit (consume 1 Fuel, produce nothing)
facing 10 units of Fuel. -/
def exStC7 : SimState :=
  { resources := fun _ => { name := "Fuel", amount := 10, max_capacity := 50 },
    system := { name := "Crew", consumed := ⟨some 0, 1⟩, produced := ⟨none, 0⟩,
                amount_stored := 0, status := CStat.disabled, processing_time := 2 },
    queue := [] }

/-- C7 counterexample: `system_run` does not check `DISABLED` — a
disabled unit still converts, here consuming 1 unit of Fuel (10 → 9). -/
theorem system_run_disabled_progresses_cex :
    exStC7.system.status = CStat.disabled ∧
    (exStC7.resources 0).amount = 10 ∧
    ((system_run exStC7).resources 0).amount = 9 := by
  decide

/-- C7 amended: a `DISABLED` unit's cycle proceeds exactly as a
`STANDARD` unit's would — same resource effects, same buffer, same
events — and its simulated processing time is the unscaled base time
(the `switch` in `system_simulate_process_time` has no `DISABLED`
case). -/
theorem system_run_disabled_no_hold (st : SimState)
    (h : st.system.status = CStat.disabled) :
    (system_run st).resources =
      (system_run { st with system := { st.system with status := CStat.standard } }).resources ∧
    (system_run st).system.amount_stored =
      (system_run { st with system := { st.system with status := CStat.standard } }).system.amount_stored ∧
    (system_run st).queue =
      (system_run { st with system := { st.system with status := CStat.standard } }).queue ∧
    system_simulate_process_time st.system = st.system.processing_time := by
  rcases st with ⟨res, s, q⟩
  have hx := system_run_status_irrel res s q CStat.standard
  have h' : s.status = CStat.disabled := h
  refine ⟨?_, ?_, ?_, ?_⟩
  · simp [hx]
  · simp [hx]
  · simp [hx]
  · simp [system_simulate_process_time, h']

/-- Witness for `system_run_disabled_no_hold` at `exStC7`. -/
theorem system_run_disabled_no_hold_witness :
    (system_run exStC7).resources =
      (system_run { exStC7 with system := { exStC7.system with status := CStat.standard } }).resources ∧
    (system_run exStC7).system.amount_stored =
      (system_run { exStC7 with system := { exStC7.system with status := CStat.standard } }).system.amount_stored ∧
    (system_run exStC7).queue =
      (system_run { exStC7 with system := { exStC7.system with status := CStat.standard } }).queue ∧
    system_simulate_process_time exStC7.system = exStC7.system.processing_time :=
  system_run_disabled_no_hold exStC7 rfl

/-! ## Sequences of convert/store operations over shared resources -/

/-- Convert preserves the per-resource bounds and buffer
non-negativity, given non-negative rule amounts and buffer. -/
theorem system_convert_preserves_bounds (res : Nat → Resource) (s : System)
    (hres : ∀ j, 0 ≤ (res j).amount ∧ (res j).amount ≤ (res j).max_capacity)
    (hc : 0 ≤ s.consumed.amount) (hp : 0 ≤ s.produced.amount)
    (hst : 0 ≤ s.amount_stored) :
    (∀ j, 0 ≤ ((system_convert res s).2.1 j).amount ∧
        ((system_convert res s).2.1 j).amount ≤
          ((system_convert res s).2.1 j).max_capacity) ∧
    0 ≤ (system_convert res s).2.2.amount_stored := by
  unfold system_convert
  cases hcr : s.consumed.resource with
  | none =>
    cases hpr : s.produced.resource with
    | none =>
      refine ⟨?_, ?_⟩ <;> simp [hcr, hpr]
      exact hres
    | some p =>
      refine ⟨?_, ?_⟩ <;> simp [hcr, hpr]
      · exact hres
      · omega
  | some r =>
    by_cases hge : (res r).amount ≥ s.consumed.amount
    · have hkey : ∀ j,
          0 ≤ (updateRes res r
              { res r with amount := (res r).amount - s.consumed.amount } j).amount ∧
          (updateRes res r
              { res r with amount := (res r).amount - s.consumed.amount } j).amount ≤
            (updateRes res r
              { res r with amount := (res r).amount - s.consumed.amount } j).max_capacity := by
        intro j
        by_cases hj : j = r
        · subst hj
          have := hres j
          simp only [updateRes_same]
          constructor <;> omega
        · rw [updateRes_other res r j _ hj]
          exact hres j
      cases hpr : s.produced.resource with
      | none =>
        refine ⟨?_, ?_⟩ <;> simp [hcr, hpr, hge]
        exact hkey
      | some p =>
        refine ⟨?_, ?_⟩ <;> simp [hcr, hpr, hge]
        · exact hkey
        · omega
    · by_cases h0 : (res r).amount = 0
      · have hcpos : ¬ s.consumed.amount ≤ 0 := by rw [h0] at hge; omega
        refine ⟨?_, ?_⟩ <;> simp [hcr, hge, h0, hcpos]
        · intro j
          have := hres j
          constructor <;> omega
        · omega
      · refine ⟨?_, ?_⟩ <;> simp [hcr, hge, h0]
        · exact hres
        · omega

/-- Store preserves the per-resource bounds and buffer
non-negativity. -/
theorem system_store_preserves_bounds (res : Nat → Resource) (s : System)
    (hres : ∀ j, 0 ≤ (res j).amount ∧ (res j).amount ≤ (res j).max_capacity)
    (hst : 0 ≤ s.amount_stored) :
    (∀ j, 0 ≤ ((system_store_resources res s).2.1 j).amount ∧
        ((system_store_resources res s).2.1 j).amount ≤
          ((system_store_resources res s).2.1 j).max_capacity) ∧
    0 ≤ (system_store_resources res s).2.2.amount_stored := by
  unfold system_store_resources
  cases hpr : s.produced.resource with
  | none =>
    refine ⟨?_, ?_⟩ <;> simp [hpr]
    exact hres
  | some r =>
    by_cases h0 : s.amount_stored = 0
    · refine ⟨?_, ?_⟩ <;> simp [hpr, h0]
      exact hres
    · have hpos : 0 < s.amount_stored := by omega
      by_cases hge : (res r).max_capacity - (res r).amount ≥ s.amount_stored
      · refine ⟨?_, ?_⟩ <;> simp [hpr, h0, hge]
        intro j
        by_cases hj : j = r
        · subst hj
          have := hres j
          simp only [updateRes_same]
          constructor <;> omega
        · rw [updateRes_other res r j _ hj]
          exact hres j
      · by_cases hgt : (res r).max_capacity - (res r).amount > 0
        · have hrem : ¬ s.amount_stored - ((res r).max_capacity - (res r).amount) = 0 := by
            omega
          refine ⟨?_, ?_⟩ <;> simp [hpr, h0, hge, hgt, hrem]
          · intro j
            by_cases hj : j = r
            · subst hj
              have := hres j
              simp only [updateRes_same]
              constructor <;> omega
            · rw [updateRes_other res r j _ hj]
              exact hres j
          · omega
        · refine ⟨?_, ?_⟩ <;> simp [hpr, h0, hge, hgt]
          · exact hres
          · omega

/-- The global state seen by an arbitrary collection of units: the
shared resource store and the per-unit systems. -/
structure WorldState where
  resources : Nat → Resource
  systems : Nat → System

/-- Pointwise update of the system store. -/
def updateSys (sys : Nat → System) (i : Nat) (s : System) : Nat → System :=
  fun j => if j = i then s else sys j

/-- One operation of the simulation: unit `i` performs a convert or a
store attempt. -/
inductive SysOp where
  | convert (i : Nat)
  | store (i : Nat)

/-- Effect of one operation on the global state. -/
def world_step (w : WorldState) : SysOp → WorldState
  | SysOp.convert i =>
    let out := system_convert w.resources (w.systems i)
    { resources := out.2.1, systems := updateSys w.systems i out.2.2 }
  | SysOp.store i =>
    let out := system_store_resources w.resources (w.systems i)
    { resources := out.2.1, systems := updateSys w.systems i out.2.2 }

/-- A sequence of convert/store operations. -/
def world_run (w : WorldState) (ops : List SysOp) : WorldState :=
  ops.foldl world_step w

/-- The inductive invariant: every resource is within its bounds, and
every unit has non-negative rule amounts and a non-negative buffer
(`system_create` initialises `amount_stored` to 0). -/
def WorldInv (w : WorldState) : Prop :=
  (∀ j, 0 ≤ (w.resources j).amount ∧
    (w.resources j).amount ≤ (w.resources j).max_capacity) ∧
  (∀ i, 0 ≤ (w.systems i).consumed.amount ∧ 0 ≤ (w.systems i).produced.amount ∧
    0 ≤ (w.systems i).amount_stored)

theorem world_step_inv (w : WorldState) (op : SysOp) (h : WorldInv w) :
    WorldInv (world_step w op) := by
  obtain ⟨hres, hsys⟩ := h
  cases op with
  | convert i =>
    obtain ⟨hc, hp, hst⟩ := hsys i
    obtain ⟨hres', hst'⟩ :=
      system_convert_preserves_bounds w.resources (w.systems i) hres hc hp hst
    have hrules := system_convert_rules w.resources (w.systems i)
    constructor
    · intro j
      simpa [world_step] using hres' j
    · intro k
      by_cases hk : k = i
      · subst hk
        simp only [world_step, updateSys, eq_self_iff_true, if_true]
        exact ⟨by rw [hrules.2.1]; exact hc, by rw [hrules.2.2]; exact hp, hst'⟩
      · simp only [world_step, updateSys, if_neg hk]
        exact hsys k
  | store i =>
    obtain ⟨hc, hp, hst⟩ := hsys i
    obtain ⟨hres', hst'⟩ :=
      system_store_preserves_bounds w.resources (w.systems i) hres hst
    have hrules := system_store_rules w.resources (w.systems i)
    constructor
    · intro j
      simpa [world_step] using hres' j
    · intro k
      by_cases hk : k = i
      · subst hk
        simp only [world_step, updateSys, eq_self_iff_true, if_true]
        exact ⟨by rw [hrules.2.1]; exact hc, by rw [hrules.2.2]; exact hp, hst'⟩
      · simp only [world_step, updateSys, if_neg hk]
        exact hsys k

theorem world_run_inv (w : WorldState) (ops : List SysOp) (h : WorldInv w) :
    WorldInv (world_run w ops) := by
  induction ops generalizing w with
  | nil => simpa [world_run] using h
  | cons op t ih =>
    simpa [world_run] using ih (world_step w op) (world_step_inv w op h)

/-- C1: starting from a state where every resource satisfies
`0 ≤ amount ≤ max_capacity`, the rule amounts are non-negative and the
buffers are non-negative (as at creation, where they are 0), any
sequence of `system_convert` / `system_store_resources` operations by
any units keeps every resource within `0 ≤ amount ≤ max_capacity`. -/
theorem world_run_resource_bounds (w : WorldState)
    (hres : ∀ j, 0 ≤ (w.resources j).amount ∧
      (w.resources j).amount ≤ (w.resources j).max_capacity)
    (hsys : ∀ i, 0 ≤ (w.systems i).consumed.amount ∧
      0 ≤ (w.systems i).produced.amount ∧ 0 ≤ (w.systems i).amount_stored)
    (ops : List SysOp) (j : Nat) :
    0 ≤ ((world_run w ops).resources j).amount ∧
    ((world_run w ops).resources j).amount ≤
      ((world_run w ops).resources j).max_capacity :=
  (world_run_inv w ops ⟨hres, hsys⟩).1 j

/-- A two-resource, one-unit world in the shape of `load_data`:
Propulsion consumes 5 Fuel and produces 25 Distance. -/
def exW : WorldState :=
  { resources := fun j =>
      if j = 0 then { name := "Fuel", amount := 1000, max_capacity := 1000 }
      else { name := "Distance", amount := 0, max_capacity := 5000 },
    systems := fun _ =>
      { name := "Propulsion", consumed := ⟨some 0, 5⟩, produced := ⟨some 1, 25⟩,
        amount_stored := 0, status := CStat.standard, processing_time := 50 } }

/-- Witness for `world_run_resource_bounds`: a convert followed by a
store keeps Distance within bounds. -/
theorem world_run_resource_bounds_witness :
    0 ≤ ((world_run exW [SysOp.convert 0, SysOp.store 0]).resources 1).amount ∧
    ((world_run exW [SysOp.convert 0, SysOp.store 0]).resources 1).amount ≤
      ((world_run exW [SysOp.convert 0, SysOp.store 0]).resources 1).max_capacity :=
  world_run_resource_bounds exW
    (fun j => by by_cases h : j = 0 <;> simp [exW, h])
    (fun i => by refine ⟨?_, ?_, ?_⟩ <;> simp [exW])
    [SysOp.convert 0, SysOp.store 0] 1

/-! ## The Coordinator (`manager.c`) -/

/-- The manager's state: the resource registry (for name lookups through
event pointers), the system registry, and the running flag. -/
structure ManagerState where
  resources : Nat → Resource
  systems : List System
  simulation_running : Bool

/-- The body of `manager_run`'s drain loop (`manager.c` lines 61-99) for
one popped event: compute the four reaction flags and broadcast the
chosen mode.  The C reads `event.resource->name`, so an event with a
`NULL` resource would crash there; such events are never produced by
`system_run` (its pushes use the non-null failing resource), and we
leave the state unchanged in that unreachable branch. -/
def manager_handle_event (m : ManagerState) (e : Event) : ManagerState :=
  match e.resource with
  | none => m
  | some r =>
    let name := (m.resources r).name
    let no_oxygen_flag := e.status = CStat.empty ∧ name = "Oxygen"
    let distance_reached_flag := e.status = CStat.capacity ∧ name = "Distance"
    let need_more_flag := e.status = CStat.low ∨ e.status = CStat.empty ∨
      e.status = CStat.insufficient
    let need_less_flag := e.status = CStat.capacity
    let applyMode := fun (mode : CStat) =>
      m.systems.map (fun sys =>
        if mode = CStat.terminate ∨ sys.produced.resource = e.resource then
          { sys with status := mode }
        else sys)
    if no_oxygen_flag ∨ distance_reached_flag then
      { m with simulation_running := false, systems := applyMode CStat.terminate }
    else if need_more_flag then { m with systems := applyMode CStat.fast }
    else if need_less_flag then { m with systems := applyMode CStat.slow }
    else m

/-- The drain loop of `manager_run`: pop and handle until the queue is
empty. -/
def manager_run (m : ManagerState) (q : List Event) : ManagerState :=
  q.foldl manager_handle_event m

/-- C5: classification of a drained event.  `EMPTY` on "Oxygen" or
`CAPACITY` on "Distance" terminates everything; otherwise
`LOW`/`EMPTY`/`INSUFFICIENT` sets `FAST` exactly on the units producing
the event's resource; otherwise `CAPACITY` sets `SLOW` exactly on those
units; any other status changes nothing. -/
theorem manager_handle_event_classification (m : ManagerState) (e : Event) (r : Nat)
    (hr : e.resource = some r) :
    ((e.status = CStat.empty ∧ (m.resources r).name = "Oxygen") ∨
        (e.status = CStat.capacity ∧ (m.resources r).name = "Distance") →
      (manager_handle_event m e).simulation_running = false ∧
      (manager_handle_event m e).systems =
        m.systems.map (fun sys => { sys with status := CStat.terminate })) ∧
    (¬ ((e.status = CStat.empty ∧ (m.resources r).name = "Oxygen") ∨
        (e.status = CStat.capacity ∧ (m.resources r).name = "Distance")) →
      (e.status = CStat.low ∨ e.status = CStat.empty ∨ e.status = CStat.insufficient) →
      (manager_handle_event m e).simulation_running = m.simulation_running ∧
      (manager_handle_event m e).systems =
        m.systems.map (fun sys =>
          if sys.produced.resource = some r then { sys with status := CStat.fast }
          else sys)) ∧
    (¬ ((e.status = CStat.empty ∧ (m.resources r).name = "Oxygen") ∨
        (e.status = CStat.capacity ∧ (m.resources r).name = "Distance")) →
      e.status = CStat.capacity →
      (manager_handle_event m e).simulation_running = m.simulation_running ∧
      (manager_handle_event m e).systems =
        m.systems.map (fun sys =>
          if sys.produced.resource = some r then { sys with status := CStat.slow }
          else sys)) ∧
    (e.status ≠ CStat.low → e.status ≠ CStat.empty → e.status ≠ CStat.insufficient →
      e.status ≠ CStat.capacity →
      manager_handle_event m e = m) := by
  refine ⟨?_, ?_, ?_, ?_⟩
  · rintro (⟨hs, hn⟩ | ⟨hs, hn⟩) <;>
      simp [manager_handle_event, hr, hs, hn]
  · intro hterm hmore
    have hcap : e.status ≠ CStat.capacity := by
      rcases hmore with h | h | h <;> rw [h] <;> simp
    have hnotox : ¬ (e.status = CStat.empty ∧ (m.resources r).name = "Oxygen") := by
      intro hc
      exact hterm (Or.inl hc)
    rcases hmore with h | h | h <;>
      simp [manager_handle_event, hr, h, hcap] <;>
      simp [h] at hnotox <;> simp [hnotox]
  · intro hterm hcap
    have hnodist : ¬ (m.resources r).name = "Distance" := by
      intro hc
      exact hterm (Or.inr ⟨hcap, hc⟩)
    simp [manager_handle_event, hr, hcap, hnodist]
  · intro h1 h2 h3 h4
    simp [manager_handle_event, hr, h1, h2, h3, h4]

/-- A two-unit manager state with Oxygen depleted. -/
def exM : ManagerState :=
  { resources := fun j =>
      if j = 0 then { name := "Oxygen", amount := 0, max_capacity := 50 }
      else { name := "Energy", amount := 30, max_capacity := 50 },
    systems :=
      [{ name := "Life Support", consumed := ⟨some 1, 7⟩, produced := ⟨some 0, 4⟩,
         amount_stored := 0, status := CStat.standard, processing_time := 10 },
       { name := "Generator", consumed := ⟨none, 0⟩, produced := ⟨some 1, 10⟩,
         amount_stored := 0, status := CStat.standard, processing_time := 20 }],
    simulation_running := true }

/-- An `EMPTY` event on the Oxygen resource. -/
def exEvC5 : Event :=
  { system := "Crew", resource := some 0, status := CStat.empty,
    priority := 2, amount := 1 }

/-- Witness for `manager_handle_event_classification` at an Oxygen
`EMPTY` event on `exM`. -/
theorem manager_handle_event_classification_witness :
    ((exEvC5.status = CStat.empty ∧ (exM.resources 0).name = "Oxygen") ∨
        (exEvC5.status = CStat.capacity ∧ (exM.resources 0).name = "Distance") →
      (manager_handle_event exM exEvC5).simulation_running = false ∧
      (manager_handle_event exM exEvC5).systems =
        exM.systems.map (fun sys => { sys with status := CStat.terminate })) ∧
    (¬ ((exEvC5.status = CStat.empty ∧ (exM.resources 0).name = "Oxygen") ∨
        (exEvC5.status = CStat.capacity ∧ (exM.resources 0).name = "Distance")) →
      (exEvC5.status = CStat.low ∨ exEvC5.status = CStat.empty ∨
        exEvC5.status = CStat.insufficient) →
      (manager_handle_event exM exEvC5).simulation_running = exM.simulation_running ∧
      (manager_handle_event exM exEvC5).systems =
        exM.systems.map (fun sys =>
          if sys.produced.resource = some 0 then { sys with status := CStat.fast }
          else sys)) ∧
    (¬ ((exEvC5.status = CStat.empty ∧ (exM.resources 0).name = "Oxygen") ∨
        (exEvC5.status = CStat.capacity ∧ (exM.resources 0).name = "Distance")) →
      exEvC5.status = CStat.capacity →
      (manager_handle_event exM exEvC5).simulation_running = exM.simulation_running ∧
      (manager_handle_event exM exEvC5).systems =
        exM.systems.map (fun sys =>
          if sys.produced.resource = some 0 then { sys with status := CStat.slow }
          else sys)) ∧
    (exEvC5.status ≠ CStat.low → exEvC5.status ≠ CStat.empty →
      exEvC5.status ≠ CStat.insufficient → exEvC5.status ≠ CStat.capacity →
      manager_handle_event exM exEvC5 = exM) :=
  manager_handle_event_classification exM exEvC5 0 rfl

/-! ## Interleaving model of the convert critical section

`system_convert` performs `if (amount >= need) amount -= need;` on a
shared `Resource` (`system.c` lines 133-141) while holding no lock: the
`resource_sem` semaphore declared and initialised in `main.c` is never
acquired (`sem_wait`/`sem_post` appear nowhere), and `system.c` contains
no synchronisation.  Under the program's one-thread-per-unit execution
(`main.c`), the check and the subtraction of two units touching the same
resource may therefore interleave arbitrarily.  We model the two machine
steps of each unit's consumption explicitly. -/

/-- A machine step of one of two units racing through
`system_convert`'s consumption: `check i` evaluates unit `i`'s
`amount >= need_i` test against the current shared value, `sub i`
performs unit `i`'s `amount -= need_i` (only if its test passed, as in
the C control flow). -/
inductive RaceStep where
  | check1
  | sub1
  | check2
  | sub2
  deriving DecidableEq, Repr

/-- The shared resource counter together with each unit's recorded test
outcome. -/
structure RaceState where
  amount : Int
  pass1 : Bool
  pass2 : Bool
  deriving DecidableEq, Repr

/-- Effect of one machine step; `need1`/`need2` are the two units'
required amounts. -/
def race_step (need1 need2 : Int) (st : RaceState) : RaceStep → RaceState
  | RaceStep.check1 => { st with pass1 := need1 ≤ st.amount }
  | RaceStep.sub1 =>
    if st.pass1 then { st with amount := st.amount - need1 } else st
  | RaceStep.check2 => { st with pass2 := need2 ≤ st.amount }
  | RaceStep.sub2 =>
    if st.pass2 then { st with amount := st.amount - need2 } else st

/-- Execution of a schedule (an interleaving of the two units'
steps). -/
def race_run (need1 need2 : Int) (sched : List RaceStep) (st : RaceState) : RaceState :=
  sched.foldl (race_step need1 need2) st

/-- C9 refutation: with no lock held, the interleaving
`check1; check2; sub1; sub2` of two units each requiring 5 from a
resource holding 5 lets both checks pass and drives the amount to `-5`,
while either sequential order consumes only once and leaves 0 — the
check-and-subtract is not indivisible: an update is lost and the bound
`0 ≤ amount` is violated. -/
theorem convert_check_subtract_not_atomic :
    race_run 5 5 [RaceStep.check1, RaceStep.check2, RaceStep.sub1, RaceStep.sub2]
        { amount := 5, pass1 := false, pass2 := false } =
      { amount := -5, pass1 := true, pass2 := true } ∧
    race_run 5 5 [RaceStep.check1, RaceStep.sub1, RaceStep.check2, RaceStep.sub2]
        { amount := 5, pass1 := false, pass2 := false } =
      { amount := 0, pass1 := true, pass2 := false } ∧
    race_run 5 5 [RaceStep.check2, RaceStep.sub2, RaceStep.check1, RaceStep.sub1]
        { amount := 5, pass1 := false, pass2 := false } =
      { amount := 0, pass1 := false, pass2 := true } ∧
    ¬ (0 : Int) ≤ -5 := by
  decide
